import Mathlib

/-
Verification of the piecash ledger validation engine against its
natural-language specification.

The development shallowly embeds the relevant parts of the repository:

* the per-transaction validation algorithm (spec section 4.4; the
  transaction module itself is not among the provided sources, so the
  algorithm is modelled from the specification and cross-checked against
  tests/test_transaction.py);
* the commit-time orchestration of piecash/core/session.py
  (validate_book, adapt_session, open_book, version_supported);
* the price and base-currency logic of piecash/core/commodity.py
  (Commodity.base_currency, Commodity.update_prices).

Amounts are exact rationals (the spec requires exact arithmetic);
dates are modelled as natural numbers counting days; fallible
operations return Except.
-/

namespace Piecash

/-- A commodity is identified by its (namespace, mnemonic) pair
(spec section 3); namespace "CURRENCY" marks a tradable currency. -/
structure Commodity where
  namespace_ : String
  mnemonic : String
deriving DecidableEq, Repr

/-- An account: a name and exactly one commodity (spec section 3; only
the fields the validation engine reads are embedded). -/
structure Account where
  name : String
  commodity : Commodity
deriving DecidableEq, Repr

/-- One leg of a transaction: an account, a value denominated in the
transaction currency and an optional quantity denominated in the
account commodity (spec section 3). -/
structure Split where
  account : Account
  value : ℚ
  quantity : Option ℚ
  memo : String
deriving DecidableEq, Repr

/-- A transaction: a currency and its set of splits (spec section 3;
dates and description do not affect validation and are omitted). -/
structure Transaction where
  currency : Commodity
  splits : List Split
deriving DecidableEq, Repr

/-- The validation errors of spec section 7 that the per-transaction
algorithm can raise. -/
inductive ValidationErr where
  | invalidTransactionCurrency : ValidationErr
  | quantityValueMismatch : ValidationErr
  | missingQuantity : ValidationErr
  | quantitySignMismatch : ValidationErr
  | imbalancedTransaction : ℚ → ValidationErr
deriving DecidableEq, Repr

/-- Sum of the values of a list of splits (the value_sum of spec
section 4.4). -/
def valueSum (l : List Split) : ℚ := (l.map (fun s => s.value)).sum

/-- Sum of the values of the splits whose account commodity is c. -/
def valueSumFor (l : List Split) (c : Commodity) : ℚ :=
  (l.map (fun s => if s.account.commodity = c then s.value else 0)).sum

/-- Sum of the quantities of the splits whose account commodity is c
(the per-commodity quantity_sum of spec section 4.4); an absent
quantity counts as zero. -/
def quantitySum (l : List Split) (c : Commodity) : ℚ :=
  (l.map (fun s => if s.account.commodity = c then s.quantity.getD 0 else 0)).sum

/-- True when q and v carry the same (nonzero) sign. -/
def sameSign (q v : ℚ) : Bool :=
  (decide (0 < q) && decide (0 < v)) || (decide (q < 0) && decide (v < 0))

/-- Modelled from the spec: step 2 of section 4.4 (per-split
quantity/value consistency) of Transaction.validate, whose source
module is not among the provided files. If the split account commodity
equals the transaction currency, quantity is forced equal to value
(auto-set when absent, rejected when different); otherwise quantity
must be present and, when value is nonzero, carry the same sign as
value. -/
def validateSplit (cur : Commodity) (s : Split) : Except ValidationErr Split :=
  if s.account.commodity = cur then
    match s.quantity with
    | none => .ok { s with quantity := some s.value }
    | some q => if q = s.value then .ok s else .error .quantityValueMismatch
  else
    match s.quantity with
    | none => .error .missingQuantity
    | some q =>
      if s.value = 0 then .ok s
      else if sameSign q s.value then .ok s
      else .error .quantitySignMismatch

/-- Modelled from the spec: the per-split pass of Transaction.validate
applied to every split in order, stopping at the first violation
(spec section 4.4, step 2 and step 5). -/
def validateSplits (cur : Commodity) : List Split → Except ValidationErr (List Split)
  | [] => .ok []
  | s :: rest =>
    match validateSplit cur s with
    | .error e => .error e
    | .ok s' =>
      match validateSplits cur rest with
      | .error e => .error e
      | .ok rest' => .ok (s' :: rest')

/-- The distinct account commodities appearing among a list of splits. -/
def commoditiesOf (l : List Split) : List Commodity :=
  (l.map (fun s => s.account.commodity)).dedup

/-- The reserved trading account for a commodity (spec section 4.4,
step 4: looked up or created under a reserved trading root, keyed by
commodity). -/
def tradingAccount (c : Commodity) : Account :=
  { name := "Trading " ++ c.namespace_ ++ " " ++ c.mnemonic, commodity := c }

/-- Modelled from the spec: the trading splits auto-created by step 4
of section 4.4 when use_trading_accounts is set. For every commodity
with a nonzero quantity_sum among the splits, a matching split against
the trading account of that commodity nets the quantity imbalance (and
the value booked against that commodity), as exercised by
test_create_cdtytransaction_tradingaccount. -/
def mkTradingSplit (l : List Split) (c : Commodity) : Split :=
  { account := tradingAccount c,
    value := -(valueSumFor l c),
    quantity := some (-(quantitySum l c)),
    memo := "trading" }

/-- The trading splits appended by step 4: one netting split per
commodity whose quantity_sum over the splits is nonzero. -/
def tradingSplits (l : List Split) : List Split :=
  ((commoditiesOf l).filter (fun c => ¬ quantitySum l c = 0)).map (mkTradingSplit l)

/-- Modelled from the spec: Transaction.validate (spec section 4.4),
whose source module is not among the provided files. Steps in order:
(1) the transaction currency namespace must be "CURRENCY", else
InvalidTransactionCurrency; (2) per-split quantity/value consistency;
(3) value_sum must be exactly zero, else ImbalancedTransaction with
the residual; (4) with use_trading_accounts set, trading splits are
appended so quantity sums net to zero per commodity. -/
def validate (use_trading_accounts : Bool) (tx : Transaction) :
    Except ValidationErr Transaction :=
  if tx.currency.namespace_ ≠ "CURRENCY" then .error .invalidTransactionCurrency
  else
    match validateSplits tx.currency tx.splits with
    | .error e => .error e
    | .ok splits' =>
      if valueSum splits' = 0 then
        .ok { tx with
              splits := if use_trading_accounts then splits' ++ tradingSplits splits'
                        else splits' }
      else .error (.imbalancedTransaction (valueSum splits'))

/-- A staged object of the session, carrying the transactions its
object_to_validate method yields for each kind of change
(piecash/core/session.py, validate_book; the per-class
object_to_validate implementations live outside the embedded modules,
so an object is represented by their results). A None yielded by the
method is an Option.none here. -/
structure StagedObj where
  onDirty : List (Option Transaction)
  onNew : List (Option Transaction)
  onDeleted : List (Option Transaction)

/-- The object_to_validate call of validate_book, dispatching on the
change kind string. -/
def objectToValidate (o : StagedObj) (change : String) : List (Option Transaction) :=
  if change = "dirty" then o.onDirty
  else if change = "new" then o.onNew
  else if change = "deleted" then o.onDeleted
  else []

/-- The dirty, new and deleted object lists of a SQLAlchemy session at
flush time (piecash/core/session.py, validate_book). -/
structure SessionState where
  dirty : List StagedObj
  new : List StagedObj
  deleted : List StagedObj

/-- The transactions implied by the pending batch: all results of
object_to_validate over the dirty, new and deleted objects, with None
discarded and duplicates removed (the set built by validate_book in
piecash/core/session.py). -/
def collectTxs (s : SessionState) : List Transaction :=
  (((s.dirty.flatMap (fun o => objectToValidate o "dirty"))
      ++ (s.new.flatMap (fun o => objectToValidate o "new"))
      ++ (s.deleted.flatMap (fun o => objectToValidate o "deleted"))).filterMap id).dedup

/-- Validation of a list of transactions in order, stopping at the
first failure (the final loop of validate_book); on success it returns
the validated transactions that the flush will persist. -/
def validateAll (use_trading_accounts : Bool) :
    List Transaction → Except ValidationErr (List Transaction)
  | [] => .ok []
  | tx :: rest =>
    match validate use_trading_accounts tx with
    | .error e => .error e
    | .ok tx' =>
      match validateAll use_trading_accounts rest with
      | .error e => .error e
      | .ok rest' => .ok (tx' :: rest')

/-- The before_flush hook validate_book of piecash/core/session.py:
collect the distinct transactions implied by the dirty, new and
deleted objects and validate each of them, raising on the first
failure. -/
def validate_book (use_trading_accounts : Bool) (s : SessionState) :
    Except ValidationErr (List Transaction) :=
  validateAll use_trading_accounts (collectTxs s)

/-- A flush attempt against a durable store: validate_book runs before
anything is persisted, so on failure the store is unchanged and the
error is surfaced, and only on all-pass are the validated transactions
handed to the store. -/
def flushBook (use_trading_accounts : Bool) (store : List Transaction)
    (s : SessionState) : List Transaction × Option ValidationErr :=
  match validate_book use_trading_accounts s with
  | .error e => (store, some e)
  | .ok txs => (store ++ txs, none)

/-- A session bound to a book: the commit entry point (replaceable, as
adapt_session does) and the staged in-memory changes. -/
structure SASession where
  commitFn : List Transaction → SessionState → Except String (List Transaction)
  staged : SessionState

/-- The raising commit installed on read-only sessions
(piecash/core/session.py, adapt_session.readonly_commit). -/
def readonly_commit : List Transaction → SessionState → Except String (List Transaction) :=
  fun _ _ => .error "You cannot change the DB, it is locked !"

/-- The readonly aspect of adapt_session (piecash/core/session.py):
when the book is opened read-only the session commit method is
replaced by readonly_commit; nothing else of the session is touched. -/
def adapt_session (s : SASession) (readonly : Bool) : SASession :=
  if readonly then { s with commitFn := readonly_commit } else s

/-- Staging a new object on the in-memory session graph (a plain
mutation of the object graph, which no read-only logic intercepts). -/
def stageNew (s : SASession) (o : StagedObj) : SASession :=
  { s with staged := { s.staged with new := s.staged.new ++ [o] } }

/-- The supported schema versions table of piecash/core/session.py. -/
def version_supported : List (String × Nat) :=
  [("Gnucash-Resave", 19920), ("invoices", 3), ("books", 1), ("accounts", 1),
   ("slots", 3), ("taxtables", 2), ("lots", 2), ("orders", 1), ("vendors", 1),
   ("customers", 2), ("jobs", 1), ("transactions", 3), ("Gnucash", 2060400),
   ("budget_amounts", 1), ("billterms", 2), ("recurrences", 2), ("entries", 3),
   ("prices", 2), ("schedxactions", 1), ("splits", 4), ("taxtable_entries", 3),
   ("employees", 2), ("commodities", 1), ("budgets", 1)]

/-- Whether the character list s occurs at the start of l. -/
def charsPre : List Char → List Char → Bool
  | [], _ => true
  | _ :: _, [] => false
  | a :: s, b :: l => a = b && charsPre s l

/-- Whether the character list s occurs contiguously inside l: the
python expression `k in "Gnucash"` is this substring test on the
characters of k. -/
def charsSub (s : List Char) : List Char → Bool
  | [] => s.isEmpty
  | b :: l => charsPre s (b :: l) || charsSub s l

/-- Insertion of a key into a python dict represented as an
insertion-ordered association list: an existing key keeps its place
and gets the new value, a fresh key is appended. -/
def pyDictInsert (m : List (String × Nat)) (k : String) (v : Nat) : List (String × Nat) :=
  if m.any (fun p => p.1 = k) then m.map (fun p => if p.1 = k then (k, v) else p)
  else m ++ [(k, v)]

/-- The dict comprehension of open_book building table_name to
table_version from the rows of the versions table. -/
def versionBookOf (rows : List (String × Nat)) : List (String × Nat) :=
  rows.foldl (fun m p => pyDictInsert m p.1 p.2) []

/-- The version-check loop of open_book (piecash/core/session.py):
every entry of the version dict whose name is not a substring of
"Gnucash" (the `k in ("Gnucash")` test of the source is a substring
test) is asserted to match version_supported; an unknown name is a
KeyError. -/
def checkVersions : List (String × Nat) → Except String Unit
  | [] => .ok ()
  | (k, v) :: rest =>
    if charsSub k.toList "Gnucash".toList then checkVersions rest
    else
      match List.lookup k version_supported with
      | none => .error ("KeyError: " ++ k)
      | some sv =>
        if sv = v then checkVersions rest
        else .error ("Unsupported version for table " ++ k)

/-- The handle open_book returns on success. -/
structure BookHandle where
  readonly : Bool
deriving DecidableEq, Repr

/-- open_book of piecash/core/session.py, reduced to its control flow
over the store contents: the database must exist, the gnclock table
must be empty unless open_if_lock is set, and the versions table rows
must pass checkVersions; only then is a book handle returned. -/
def open_book (dbExists : Bool) (locks : List (String × Nat))
    (open_if_lock : Bool) (readonly : Bool)
    (rows : List (String × Nat)) : Except String BookHandle :=
  if dbExists = false then .error "Database does not exist"
  else if locks.isEmpty = false ∧ open_if_lock = false then .error "Lock on the file"
  else
    match checkVersions (versionBookOf rows) with
    | .error e => .error e
    | .ok _ => .ok { readonly := readonly }

/-- A Price row of piecash/core/commodity.py: one unit of commodity is
worth value units of currency at the given date (dates are modelled as
day numbers). -/
structure Price where
  commodity : Commodity
  currency : Commodity
  date : Nat
  value : ℚ
  source : String
  type_ : String
deriving DecidableEq, Repr

/-- The part of the book a commodity sees: the default currency of the
root account and the currency table used by the currencies lookup. -/
structure BookC where
  default_currency : Commodity
  currencies : List Commodity
deriving DecidableEq, Repr

/-- The book.currencies(mnemonic=m) lookup. -/
def findCurrency (b : BookC) (m : String) : Option Commodity :=
  b.currencies.find? (fun c => c.mnemonic = m)

/-- A commodity together with the state base_currency and
update_prices read: its optional book, its slots (key-value pairs, for
the quoted_currency slot) and its stored Price rows. -/
structure CommodityState where
  cdty : Commodity
  book : Option BookC
  slots : List (String × String)
  prices : List Price
deriving DecidableEq, Repr

/-- The slot lookup self.get(key, None) on a commodity. -/
def slotGet (c : CommodityState) (k : String) : Option String :=
  c.slots.lookup k

/-- Commodity.base_currency of piecash/core/commodity.py: requires a
linked book; a CURRENCY-namespace commodity yields the default
currency of the book; otherwise the quoted_currency slot names the
currency, and a missing or empty slot value (the source tests the slot
value for truthiness) is an error. -/
def base_currency (c : CommodityState) : Except String Commodity :=
  match c.book with
  | none => .error "The commodity should be linked to a session to have a base_currency"
  | some b =>
    if c.cdty.namespace_ = "CURRENCY" then .ok b.default_currency
    else
      match slotGet c "quoted_currency" with
      | some m =>
        if m = "" then .error "The commodity has no information about its base currency"
        else
          match findCurrency b m with
          | some cur => .ok cur
          | none => .error "No currency with the mnemonic of the quoted_currency slot"
      | none => .error "The commodity has no information about its base currency"

/-- The errors update_prices can surface; only the first two are
GncPriceError of piecash/core/commodity.py, the third models the
lookup failure of book.currencies on the provider currency. -/
inductive UpdatePriceErr where
  | notAttached : UpdatePriceErr
  | baseCurrencySelf : UpdatePriceErr
  | currencyNotFound : UpdatePriceErr
deriving DecidableEq, Repr

/-- Whether an update_prices error is a GncPriceError. -/
def isGncPriceError : UpdatePriceErr → Bool
  | .notAttached => true
  | .baseCurrencySelf => true
  | .currencyNotFound => false

/-- The date of the most recent stored price (the
prices.order_by(-Price.date).limit(1).first() lookup of
update_prices). -/
def lastPriceDate : List Price → Option Nat
  | [] => none
  | r :: rest =>
    some (match lastPriceDate rest with
          | none => r.date
          | some d => max r.date d)

/-- The effective fetch start date of update_prices: the requested
start date, pushed past the most recent stored price when one
exists. -/
def effStart (prices : List Price) (start0 : Nat) : Nat :=
  match lastPriceDate prices with
  | none => start0
  | some d => max (d + 1) start0

/-- Commodity.update_prices of piecash/core/commodity.py. The online
providers are parameters: quandl_fx maps (mnemonic, base mnemonic,
start date) to dated exchange rates, yahooCurrencyOf gives the
currency mnemonic of a share and yahooHistorical maps (symbol, start
date, end date) to dated closes. A commodity must be attached to a
book; the requested start date defaults to seven days before today and
is advanced past the last stored price; a currency fetches quandl
rates against the default currency (refusing the default currency
itself), any other commodity fetches yahoo closes up to today; each
quote becomes a new Price row appended to the stored ones. -/
def update_prices (quandl_fx : String → String → Nat → List (Nat × ℚ))
    (yahooCurrencyOf : String → String)
    (yahooHistorical : String → Nat → Nat → List (Nat × ℚ))
    (today : Nat) (start_date : Option Nat) (c : CommodityState) :
    Except UpdatePriceErr (List Price) :=
  match c.book with
  | none => .error .notAttached
  | some b =>
    let start0 := start_date.getD (today - 7)
    let start1 := effStart c.prices start0
    if c.cdty.namespace_ = "CURRENCY" then
      if b.default_currency = c.cdty then .error .baseCurrencySelf
      else
        .ok (c.prices ++ (quandl_fx c.cdty.mnemonic b.default_currency.mnemonic start1).map
          (fun q => { commodity := c.cdty, currency := b.default_currency,
                      date := q.1, value := q.2,
                      source := "user:price", type_ := "unknown" }))
    else
      match findCurrency b (yahooCurrencyOf c.cdty.mnemonic) with
      | none => .error .currencyNotFound
      | some cur =>
        .ok (c.prices ++ (yahooHistorical c.cdty.mnemonic start1 today).map
          (fun q => { commodity := c.cdty, currency := cur,
                      date := q.1, value := q.2,
                      source := "user:price", type_ := "last" }))

/-- The stored prices after an update_prices attempt: unchanged when
the call raised. -/
def pricesAfter (c : CommodityState) (r : Except UpdatePriceErr (List Price)) :
    List Price :=
  match r with
  | .ok ps => ps
  | .error _ => c.prices

/-- Decidable equality on Except results, used to evaluate the
validation outcomes on concrete inputs. -/
instance instDecEqExcept {e a : Type} [DecidableEq e] [DecidableEq a] :
    DecidableEq (Except e a) := fun x y =>
  match x, y with
  | .ok v, .ok w =>
    if h : v = w then isTrue (by rw [h]) else isFalse (fun hc => h (Except.ok.inj hc))
  | .error v, .error w =>
    if h : v = w then isTrue (by rw [h]) else isFalse (fun hc => h (Except.error.inj hc))
  | .ok _, .error _ => isFalse (fun hc => Except.noConfusion hc)
  | .error _, .ok _ => isFalse (fun hc => Except.noConfusion hc)

/-- Sample currency used by the concrete instances below (the default
currency of the test book). -/
def sampleEUR : Commodity := ⟨"CURRENCY", "EUR"⟩

/-- Sample non-currency commodity (the broker stock of the tests). -/
def sampleStock : Commodity := ⟨"NASDAQ", "GOOG"⟩

/-- Sample currency-denominated account. -/
def sampleAsset : Account := ⟨"asset", sampleEUR⟩

/-- Sample stock-denominated account. -/
def sampleBroker : Account := ⟨"broker", sampleStock⟩

/-- Sample foreign currency with a stored price and a book whose
default currency is EUR. -/
def sampleUSD : Commodity := ⟨"CURRENCY", "USD"⟩

/-- Sample stored price row of day 5. -/
def samplePrice5 : Price := ⟨sampleUSD, sampleEUR, 5, 1, "user:price", "unknown"⟩

/-- Sample price row fetched for day 6. -/
def samplePrice6 : Price := ⟨sampleUSD, sampleEUR, 6, 1, "user:price", "unknown"⟩

/-- Sample quandl provider: one quote dated at the requested start,
clamped to day 100. -/
def sampleQuandl : String → String → Nat → List (Nat × ℚ) :=
  fun _ _ s => if s ≤ 100 then [(s, 1)] else []

/-- Sample yahoo history provider: one close dated at the requested
start when the range is nonempty. -/
def sampleYahooHist : String → Nat → Nat → List (Nat × ℚ) :=
  fun _ s e => if s ≤ e then [(s, 2)] else []

/-- Sample commodity state for the price-update runs. -/
def sampleCState : CommodityState :=
  ⟨sampleUSD, some ⟨sampleEUR, [sampleEUR]⟩, [], [samplePrice5]⟩

-- ## Theorems

theorem valueSum_cons (s : Split) (l : List Split) :
    valueSum (s :: l) = s.value + valueSum l := by
  simp [valueSum]

theorem validateSplit_value (cur : Commodity) (s s' : Split)
    (h : validateSplit cur s = .ok s') : s'.value = s.value := by
  rcases s with ⟨acc, v, q, m⟩
  rcases q with _ | q
  · by_cases hc : acc.commodity = cur
    · simp [validateSplit, hc] at h
      subst h; rfl
    · simp [validateSplit, hc] at h
  · by_cases hc : acc.commodity = cur
    · by_cases hqv : q = v
      · simp [validateSplit, hc, hqv] at h
        subst h; rfl
      · simp [validateSplit, hc, hqv] at h
    · by_cases hv0 : v = 0
      · subst hv0
        simp [validateSplit, hc] at h
        subst h; rfl
      · by_cases hss : sameSign q v = true
        · simp [validateSplit, hc, hv0, hss] at h
          subst h; rfl
        · simp [validateSplit, hc, hv0, hss] at h

theorem validateSplit_error_cases (cur : Commodity) (s : Split) (e : ValidationErr)
    (h : validateSplit cur s = .error e) :
    e = .quantityValueMismatch ∨ e = .missingQuantity ∨ e = .quantitySignMismatch := by
  rcases s with ⟨acc, v, q, m⟩
  rcases q with _ | q
  · by_cases hc : acc.commodity = cur
    · simp [validateSplit, hc] at h
    · simp [validateSplit, hc] at h
      exact Or.inr (Or.inl h.symm)
  · by_cases hc : acc.commodity = cur
    · by_cases hqv : q = v
      · simp [validateSplit, hc, hqv] at h
      · simp [validateSplit, hc, hqv] at h
        exact Or.inl h.symm
    · by_cases hv0 : v = 0
      · simp [validateSplit, hc, hv0] at h
      · by_cases hss : sameSign q v = true
        · simp [validateSplit, hc, hv0, hss] at h
        · simp [validateSplit, hc, hv0, hss] at h
          exact Or.inr (Or.inr h.symm)

theorem validateSplits_valueSum (cur : Commodity) (l l' : List Split)
    (h : validateSplits cur l = .ok l') : valueSum l' = valueSum l := by
  induction l generalizing l' with
  | nil =>
    simp [validateSplits] at h
    subst h; rfl
  | cons s rest ih =>
    cases hs : validateSplit cur s with
    | error e => simp [validateSplits, hs] at h
    | ok s' =>
      cases hr : validateSplits cur rest with
      | error e => simp [validateSplits, hs, hr] at h
      | ok rest' =>
        simp [validateSplits, hs, hr] at h
        subst h
        rw [valueSum_cons, valueSum_cons, validateSplit_value cur s s' hs, ih rest' hr]

theorem validateSplits_error_cases (cur : Commodity) (l : List Split) (e : ValidationErr)
    (h : validateSplits cur l = .error e) :
    e = .quantityValueMismatch ∨ e = .missingQuantity ∨ e = .quantitySignMismatch := by
  induction l with
  | nil => simp [validateSplits] at h
  | cons s rest ih =>
    cases hs : validateSplit cur s with
    | error e0 =>
      simp [validateSplits, hs] at h
      subst h
      exact validateSplit_error_cases cur s e0 hs
    | ok s' =>
      cases hr : validateSplits cur rest with
      | error e0 =>
        simp [validateSplits, hs, hr] at h
        subst h
        exact ih hr
      | ok rest' => simp [validateSplits, hs, hr] at h

/-- C1: for every transaction in a committing batch, validation
succeeds only if the values of its splits sum exactly to zero; a
nonzero sum (once the currency and per-split checks pass) is rejected
with ImbalancedTransaction carrying the nonzero residual; and a
transaction whose values sum to zero is never rejected by the
value-balance step. -/
theorem c1_value_balance :
    (∀ (flag : Bool) (tx tx' : Transaction), validate flag tx = .ok tx' →
       valueSum tx.splits = 0) ∧
    (∀ (flag : Bool) (tx : Transaction) (splits' : List Split),
       tx.currency.namespace_ = "CURRENCY" →
       validateSplits tx.currency tx.splits = .ok splits' →
       valueSum tx.splits ≠ 0 →
       validate flag tx = .error (.imbalancedTransaction (valueSum tx.splits))) ∧
    (∀ (flag : Bool) (tx : Transaction) (r : ℚ), valueSum tx.splits = 0 →
       validate flag tx ≠ .error (.imbalancedTransaction r)) := by
  refine ⟨?_, ?_, ?_⟩
  · intro flag tx tx' h
    by_cases hns : tx.currency.namespace_ = "CURRENCY"
    · cases hsp : validateSplits tx.currency tx.splits with
      | error e => simp [validate, hns, hsp] at h
      | ok splits' =>
        rw [← validateSplits_valueSum tx.currency tx.splits splits' hsp]
        by_cases h0 : valueSum splits' = 0
        · exact h0
        · simp [validate, hns, hsp, h0] at h
    · simp [validate, hns] at h
  · intro flag tx splits' hns hsp hne
    have hv := validateSplits_valueSum tx.currency tx.splits splits' hsp
    rw [← hv] at hne
    rw [← hv]
    simp [validate, hns, hsp, hne]
  · intro flag tx r h0 hcontra
    by_cases hns : tx.currency.namespace_ = "CURRENCY"
    · cases hsp : validateSplits tx.currency tx.splits with
      | error e =>
        simp [validate, hns, hsp] at hcontra
        rcases validateSplits_error_cases tx.currency tx.splits e hsp with h | h | h <;>
          simp [h] at hcontra
      | ok splits' =>
        have hv := validateSplits_valueSum tx.currency tx.splits splits' hsp
        rw [h0] at hv
        simp [validate, hns, hsp, hv] at hcontra
    · simp [validate, hns] at hcontra

unseal Rat.add in
/-- Witness for C1 at the transactions of test_create_basictransaction:
the balanced three-split transaction sums to zero and is not rejected
as imbalanced, the two-split transaction is rejected with residual 90. -/
theorem c1_value_balance_witness :
    valueSum [Split.mk sampleAsset 100 none "", Split.mk sampleAsset (-10) none "",
              Split.mk sampleAsset (-90) none ""] = 0 ∧
    validate false ⟨sampleEUR, [Split.mk sampleAsset 100 none "",
                                Split.mk sampleAsset (-10) none ""]⟩
      = .error (.imbalancedTransaction
          (valueSum [Split.mk sampleAsset 100 none "", Split.mk sampleAsset (-10) none ""])) ∧
    validate false ⟨sampleEUR, [Split.mk sampleAsset 100 none "",
                                Split.mk sampleAsset (-10) none "",
                                Split.mk sampleAsset (-90) none ""]⟩
      ≠ .error (.imbalancedTransaction 90) := by
  refine ⟨?_, ?_, ?_⟩
  · exact c1_value_balance.1 false
      ⟨sampleEUR, [Split.mk sampleAsset 100 none "", Split.mk sampleAsset (-10) none "",
                   Split.mk sampleAsset (-90) none ""]⟩
      ⟨sampleEUR, [Split.mk sampleAsset 100 (some 100) "", Split.mk sampleAsset (-10) (some (-10)) "",
                   Split.mk sampleAsset (-90) (some (-90)) ""]⟩
      (by decide)
  · exact c1_value_balance.2.1 false
      ⟨sampleEUR, [Split.mk sampleAsset 100 none "", Split.mk sampleAsset (-10) none ""]⟩
      [Split.mk sampleAsset 100 (some 100) "", Split.mk sampleAsset (-10) (some (-10)) ""]
      (by decide) (by decide) (by decide)
  · exact c1_value_balance.2.2 false
      ⟨sampleEUR, [Split.mk sampleAsset 100 none "", Split.mk sampleAsset (-10) none "",
                   Split.mk sampleAsset (-90) none ""]⟩
      90 (by decide)

/-- C4: a transaction whose currency commodity has a namespace other
than CURRENCY is rejected with InvalidTransactionCurrency before any
other check, regardless of the balance of its splits. -/
theorem c4_invalid_transaction_currency (flag : Bool) (tx : Transaction)
    (h : tx.currency.namespace_ ≠ "CURRENCY") :
    validate flag tx = .error .invalidTransactionCurrency := by
  unfold validate
  rw [if_pos h]

theorem validateSplits_forall2 (cur : Commodity) (l l' : List Split)
    (h : validateSplits cur l = .ok l') :
    List.Forall₂ (fun s s' => validateSplit cur s = .ok s') l l' := by
  induction l generalizing l' with
  | nil =>
    simp [validateSplits] at h
    subst h
    exact List.Forall₂.nil
  | cons s rest ih =>
    cases hs : validateSplit cur s with
    | error e => simp [validateSplits, hs] at h
    | ok s' =>
      cases hr : validateSplits cur rest with
      | error e => simp [validateSplits, hs, hr] at h
      | ok rest' =>
        simp [validateSplits, hs, hr] at h
        subst h
        exact List.Forall₂.cons hs (ih rest' hr)

theorem validateSplits_mem_error (cur : Commodity) (l : List Split) (s : Split)
    (e : ValidationErr) (hmem : s ∈ l) (hs : validateSplit cur s = .error e) :
    ∃ e', validateSplits cur l = .error e' := by
  induction l with
  | nil => cases hmem
  | cons a rest ih =>
    cases ha : validateSplit cur a with
    | error e0 => exact ⟨e0, by simp [validateSplits, ha]⟩
    | ok a' =>
      rcases List.mem_cons.mp hmem with heq | hmem'
      · subst heq
        rw [ha] at hs
        cases hs
      · rcases ih hmem' with ⟨e', he'⟩
        exact ⟨e', by simp [validateSplits, ha, he']⟩

/-- C2: per-split validation. A split on an account denominated in the
transaction currency gets quantity auto-set to value when absent, is
accepted when quantity already equals value and rejected with
QuantityValueMismatch otherwise; a split on an account of a different
commodity is rejected with a missing-quantity error when quantity is
absent, rejected with QuantitySignMismatch when value is nonzero and
the signs disagree, and accepted otherwise; validate runs this check
on every split and any per-split violation fails the whole split
pass. -/
theorem c2_split_quantity_value_rules :
    (∀ (cur : Commodity) (s : Split), s.account.commodity = cur → s.quantity = none →
       validateSplit cur s = .ok { s with quantity := some s.value }) ∧
    (∀ (cur : Commodity) (s : Split), s.account.commodity = cur →
       s.quantity = some s.value → validateSplit cur s = .ok s) ∧
    (∀ (cur : Commodity) (s : Split) (q : ℚ), s.account.commodity = cur →
       s.quantity = some q → q ≠ s.value →
       validateSplit cur s = .error .quantityValueMismatch) ∧
    (∀ (cur : Commodity) (s : Split), s.account.commodity ≠ cur → s.quantity = none →
       validateSplit cur s = .error .missingQuantity) ∧
    (∀ (cur : Commodity) (s : Split) (q : ℚ), s.account.commodity ≠ cur →
       s.quantity = some q → s.value ≠ 0 → sameSign q s.value = false →
       validateSplit cur s = .error .quantitySignMismatch) ∧
    (∀ (cur : Commodity) (s : Split) (q : ℚ), s.account.commodity ≠ cur →
       s.quantity = some q → (s.value = 0 ∨ sameSign q s.value = true) →
       validateSplit cur s = .ok s) ∧
    (∀ (cur : Commodity) (l l' : List Split), validateSplits cur l = .ok l' →
       List.Forall₂ (fun s s' => validateSplit cur s = .ok s') l l') ∧
    (∀ (cur : Commodity) (l : List Split) (s : Split) (e : ValidationErr), s ∈ l →
       validateSplit cur s = .error e → ∃ e', validateSplits cur l = .error e') := by
  refine ⟨?_, ?_, ?_, ?_, ?_, ?_, validateSplits_forall2, validateSplits_mem_error⟩
  · intro cur s hc hq
    simp [validateSplit, hc, hq]
  · intro cur s hc hq
    simp [validateSplit, hc, hq]
  · intro cur s q hc hq hne
    simp [validateSplit, hc, hq, hne]
  · intro cur s hc hq
    simp [validateSplit, hc, hq]
  · intro cur s q hc hq hv0 hss
    simp [validateSplit, hc, hq, hv0, hss]
  · intro cur s q hc hq hok
    rcases hok with hv0 | hss
    · simp [validateSplit, hc, hq, hv0]
    · by_cases hv0 : s.value = 0
      · simp [validateSplit, hc, hq, hv0]
      · simp [validateSplit, hc, hq, hv0, hss]

unseal Rat.add in
/-- Witness for C2 at the splits of test_create_cdtytransaction: the
EUR asset split gets quantity 100 auto-set, a mismatching explicit
quantity on it is rejected, the stock split without quantity is
rejected, with quantity 15 against value -90 it is rejected for the
sign, with quantity -15 it passes, and the missing-quantity split
fails the whole split pass. -/
theorem c2_split_quantity_value_rules_witness :
    validateSplit sampleEUR (Split.mk sampleAsset 100 none "")
      = .ok (Split.mk sampleAsset 100 (some 100) "") ∧
    validateSplit sampleEUR (Split.mk sampleAsset 100 (some 100) "")
      = .ok (Split.mk sampleAsset 100 (some 100) "") ∧
    validateSplit sampleEUR (Split.mk sampleAsset 100 (some 50) "")
      = .error .quantityValueMismatch ∧
    validateSplit sampleEUR (Split.mk sampleBroker (-90) none "")
      = .error .missingQuantity ∧
    validateSplit sampleEUR (Split.mk sampleBroker (-90) (some 15) "")
      = .error .quantitySignMismatch ∧
    validateSplit sampleEUR (Split.mk sampleBroker (-90) (some (-15)) "")
      = .ok (Split.mk sampleBroker (-90) (some (-15)) "") ∧
    List.Forall₂ (fun s s' => validateSplit sampleEUR s = .ok s')
      [Split.mk sampleAsset 100 none "", Split.mk sampleBroker (-90) (some (-15)) ""]
      [Split.mk sampleAsset 100 (some 100) "", Split.mk sampleBroker (-90) (some (-15)) ""] ∧
    ∃ e', validateSplits sampleEUR
      [Split.mk sampleAsset 100 none "", Split.mk sampleBroker (-90) none ""] = .error e' := by
  refine ⟨?_, ?_, ?_, ?_, ?_, ?_, ?_, ?_⟩
  · exact c2_split_quantity_value_rules.1 sampleEUR (Split.mk sampleAsset 100 none "")
      (by decide) (by decide)
  · exact c2_split_quantity_value_rules.2.1 sampleEUR (Split.mk sampleAsset 100 (some 100) "")
      (by decide) (by decide)
  · exact c2_split_quantity_value_rules.2.2.1 sampleEUR (Split.mk sampleAsset 100 (some 50) "")
      50 (by decide) (by decide) (by decide)
  · exact c2_split_quantity_value_rules.2.2.2.1 sampleEUR (Split.mk sampleBroker (-90) none "")
      (by decide) (by decide)
  · exact c2_split_quantity_value_rules.2.2.2.2.1 sampleEUR
      (Split.mk sampleBroker (-90) (some 15) "") 15 (by decide) (by decide) (by decide) (by decide)
  · exact c2_split_quantity_value_rules.2.2.2.2.2.1 sampleEUR
      (Split.mk sampleBroker (-90) (some (-15)) "") (-15) (by decide) (by decide)
      (Or.inr (by decide))
  · exact c2_split_quantity_value_rules.2.2.2.2.2.2.1 sampleEUR
      [Split.mk sampleAsset 100 none "", Split.mk sampleBroker (-90) (some (-15)) ""]
      [Split.mk sampleAsset 100 (some 100) "", Split.mk sampleBroker (-90) (some (-15)) ""]
      (by decide)
  · exact c2_split_quantity_value_rules.2.2.2.2.2.2.2 sampleEUR
      [Split.mk sampleAsset 100 none "", Split.mk sampleBroker (-90) none ""]
      (Split.mk sampleBroker (-90) none "") .missingQuantity (by decide) (by decide)

unseal Rat.add in
/-- Witness for C4 at the transaction of
test_create_cdtytransaction_cdtycurrency: a stock used as transaction
currency is rejected even though the splits balance in value and
quantity. -/
theorem c4_invalid_transaction_currency_witness :
    valueSum [Split.mk sampleAsset 100 (some 10) "", Split.mk sampleBroker (-100) (some (-10)) ""] = 0 ∧
    validate false ⟨sampleStock, [Split.mk sampleAsset 100 (some 10) "",
                                  Split.mk sampleBroker (-100) (some (-10)) ""]⟩
      = .error .invalidTransactionCurrency :=
  ⟨by decide,
   c4_invalid_transaction_currency false
     ⟨sampleStock, [Split.mk sampleAsset 100 (some 10) "",
                    Split.mk sampleBroker (-100) (some (-10)) ""]⟩
     (by decide)⟩

theorem quantitySum_cons (s : Split) (l : List Split) (c : Commodity) :
    quantitySum (s :: l) c
      = (if s.account.commodity = c then s.quantity.getD 0 else 0) + quantitySum l c := by
  simp [quantitySum]

theorem quantitySum_append (l₁ l₂ : List Split) (c : Commodity) :
    quantitySum (l₁ ++ l₂) c = quantitySum l₁ c + quantitySum l₂ c := by
  simp [quantitySum]

theorem quantitySum_eq_zero_of_not_mem (l : List Split) (c : Commodity)
    (h : c ∉ l.map (fun s => s.account.commodity)) : quantitySum l c = 0 := by
  induction l with
  | nil => simp [quantitySum]
  | cons s rest ih =>
    rw [List.map_cons] at h
    rw [quantitySum_cons,
        if_neg (fun hc => h (List.mem_cons.mpr (Or.inl hc.symm))),
        ih (fun hc => h (List.mem_cons.mpr (Or.inr hc))), add_zero]

theorem quantitySum_map_mkTrading (l : List Split) (cs : List Commodity) (c : Commodity)
    (hnd : cs.Nodup) :
    quantitySum (cs.map (mkTradingSplit l)) c
      = if c ∈ cs then -(quantitySum l c) else 0 := by
  induction cs with
  | nil => simp [quantitySum]
  | cons c' cs ih =>
    have hc' : c' ∉ cs := (List.nodup_cons.mp hnd).1
    have hnd' : cs.Nodup := (List.nodup_cons.mp hnd).2
    rw [List.map_cons, quantitySum_cons, ih hnd']
    by_cases hcc : c' = c
    · subst hcc
      simp [mkTradingSplit, tradingAccount, hc']
    · have hcc2 : ¬ c = c' := fun h => hcc h.symm
      simp [mkTradingSplit, tradingAccount, hcc, hcc2]

theorem commoditiesOf_nodup (l : List Split) : (commoditiesOf l).Nodup :=
  List.nodup_dedup _

theorem quantitySum_with_trading (l : List Split) (c : Commodity) :
    quantitySum (l ++ tradingSplits l) c = 0 := by
  rw [quantitySum_append, tradingSplits,
      quantitySum_map_mkTrading l _ c ((commoditiesOf_nodup l).filter _)]
  by_cases hz : quantitySum l c = 0
  · simp [hz]
  · have hmemd : c ∈ commoditiesOf l := by
      rw [commoditiesOf, List.mem_dedup]
      by_contra hc
      exact hz (quantitySum_eq_zero_of_not_mem l c hc)
    have hmem : c ∈ (commoditiesOf l).filter (fun c => ¬ quantitySum l c = 0) := by
      rw [List.mem_filter]
      exact ⟨hmemd, by simpa using hz⟩
    rw [if_pos hmem, add_neg_cancel]

/-- C3: with use_trading_accounts set, any transaction accepted by
validation has, for every commodity other than the transaction
currency, a zero quantity sum over its (possibly auto-extended)
splits; with the flag unset, success is decided by the currency,
per-split and value-balance checks alone, so a quantity-only imbalance
never blocks the commit. -/
theorem c3_trading_account_netting :
    (∀ (tx tx' : Transaction) (c : Commodity), validate true tx = .ok tx' →
       c ≠ tx.currency → quantitySum tx'.splits c = 0) ∧
    (∀ (tx : Transaction) (splits' : List Split),
       tx.currency.namespace_ = "CURRENCY" →
       validateSplits tx.currency tx.splits = .ok splits' →
       valueSum splits' = 0 →
       validate false tx = .ok { tx with splits := splits' }) := by
  constructor
  · intro tx tx' c h _
    by_cases hns : tx.currency.namespace_ = "CURRENCY"
    · cases hsp : validateSplits tx.currency tx.splits with
      | error e => simp [validate, hns, hsp] at h
      | ok splits' =>
        by_cases h0 : valueSum splits' = 0
        · simp [validate, hns, hsp, h0] at h
          subst h
          exact quantitySum_with_trading splits' c
        · simp [validate, hns, hsp, h0] at h
    · simp [validate, hns] at h
  · intro tx splits' hns hsp h0
    simp [validate, hns, hsp, h0]

unseal Rat.add in
/-- Witness for C3 at the transactions of
test_create_cdtytransaction_tradingaccount and
test_create_cdtytransaction: with trading accounts the committed
stock quantity sum is zero, and without them the transaction with a
stock quantity sum of -15 commits. -/
theorem c3_trading_account_netting_witness :
    quantitySum [Split.mk sampleAsset 100 (some 100) "",
                 Split.mk sampleBroker (-100) (some (-15)) "",
                 Split.mk (tradingAccount sampleEUR) (-100) (some (-100)) "trading",
                 Split.mk (tradingAccount sampleStock) 100 (some 15) "trading"]
      sampleStock = 0 ∧
    validate false ⟨sampleEUR, [Split.mk sampleAsset 100 none "",
                                Split.mk sampleBroker (-90) (some (-15)) "",
                                Split.mk sampleAsset (-10) none ""]⟩
      = .ok ⟨sampleEUR, [Split.mk sampleAsset 100 (some 100) "",
                         Split.mk sampleBroker (-90) (some (-15)) "",
                         Split.mk sampleAsset (-10) (some (-10)) ""]⟩ ∧
    quantitySum [Split.mk sampleAsset 100 (some 100) "",
                 Split.mk sampleBroker (-90) (some (-15)) "",
                 Split.mk sampleAsset (-10) (some (-10)) ""] sampleStock ≠ 0 := by
  refine ⟨?_, ?_, by decide⟩
  · exact c3_trading_account_netting.1
      ⟨sampleEUR, [Split.mk sampleAsset 100 none "",
                   Split.mk sampleBroker (-100) (some (-15)) ""]⟩
      ⟨sampleEUR, [Split.mk sampleAsset 100 (some 100) "",
                   Split.mk sampleBroker (-100) (some (-15)) "",
                   Split.mk (tradingAccount sampleEUR) (-100) (some (-100)) "trading",
                   Split.mk (tradingAccount sampleStock) 100 (some 15) "trading"]⟩
      sampleStock (by decide) (by decide)
  · exact c3_trading_account_netting.2
      ⟨sampleEUR, [Split.mk sampleAsset 100 none "",
                   Split.mk sampleBroker (-90) (some (-15)) "",
                   Split.mk sampleAsset (-10) none ""]⟩
      [Split.mk sampleAsset 100 (some 100) "",
       Split.mk sampleBroker (-90) (some (-15)) "",
       Split.mk sampleAsset (-10) (some (-10)) ""]
      (by decide) (by decide) (by decide)

theorem validateAll_mem_error (flag : Bool) (l : List Transaction) (tx : Transaction)
    (e : ValidationErr) (hmem : tx ∈ l) (h : validate flag tx = .error e) :
    ∃ e', validateAll flag l = .error e' := by
  induction l with
  | nil => cases hmem
  | cons a rest ih =>
    cases ha : validate flag a with
    | error e0 => exact ⟨e0, by simp [validateAll, ha]⟩
    | ok a' =>
      rcases List.mem_cons.mp hmem with heq | hmem'
      · subst heq
        rw [ha] at h
        cases h
      · rcases ih hmem' with ⟨e', he'⟩
        exact ⟨e', by simp [validateAll, ha, he']⟩

theorem validateAll_all_ok (flag : Bool) (l : List Transaction)
    (h : ∀ tx ∈ l, ∃ tx', validate flag tx = .ok tx') :
    ∃ txs, validateAll flag l = .ok txs := by
  induction l with
  | nil => exact ⟨[], rfl⟩
  | cons a rest ih =>
    rcases h a (List.mem_cons_self a rest) with ⟨a', ha⟩
    rcases ih (fun tx hm => h tx (List.mem_cons.mpr (Or.inr hm))) with ⟨txs, htxs⟩
    exact ⟨a' :: txs, by simp [validateAll, ha, htxs]⟩

/-- C5: the commit-time batch is the deduplicated set of transactions
implied by the dirty, new and deleted objects with None discarded;
each collected transaction is validated, and one failing transaction
makes the flush surface an error with the durable store untouched (so
a batch with a valid and an invalid transaction persists neither),
while an all-pass batch appends exactly the validated transactions. -/
theorem c5_atomic_batch_validation :
    (∀ s : SessionState, (collectTxs s).Nodup) ∧
    (∀ (flag : Bool) (store : List Transaction) (s : SessionState)
       (tx : Transaction) (e : ValidationErr),
       tx ∈ collectTxs s → validate flag tx = .error e →
       (flushBook flag store s).1 = store ∧ ∃ e', (flushBook flag store s).2 = some e') ∧
    (∀ (flag : Bool) (store : List Transaction) (s : SessionState),
       (∀ tx ∈ collectTxs s, ∃ tx', validate flag tx = .ok tx') →
       ∃ txs, flushBook flag store s = (store ++ txs, none)) := by
  refine ⟨?_, ?_, ?_⟩
  · intro s
    exact List.nodup_dedup _
  · intro flag store s tx e hmem hval
    rcases validateAll_mem_error flag (collectTxs s) tx e hmem hval with ⟨e', he'⟩
    exact ⟨by simp [flushBook, validate_book, he'], e',
           by simp [flushBook, validate_book, he']⟩
  · intro flag store s hall
    rcases validateAll_all_ok flag (collectTxs s) hall with ⟨txs, htxs⟩
    exact ⟨txs, by simp [flushBook, validate_book, htxs]⟩

unseal Rat.add in
/-- Witness for C5: a session staging one balanced and one imbalanced
transaction flushes to an untouched store with an error, and the
session staging only the balanced one persists it. -/
theorem c5_atomic_batch_validation_witness :
    (collectTxs ⟨[], [⟨[], [some ⟨sampleEUR, [Split.mk sampleAsset 100 none "",
                                              Split.mk sampleAsset (-100) none ""]⟩,
                            some ⟨sampleEUR, [Split.mk sampleAsset 100 none "",
                                              Split.mk sampleAsset (-10) none ""]⟩,
                            none], []⟩], []⟩).Nodup ∧
    ((flushBook false [] ⟨[], [⟨[], [some ⟨sampleEUR, [Split.mk sampleAsset 100 none "",
                                                       Split.mk sampleAsset (-100) none ""]⟩,
                                     some ⟨sampleEUR, [Split.mk sampleAsset 100 none "",
                                                       Split.mk sampleAsset (-10) none ""]⟩,
                                     none], []⟩], []⟩).1 = [] ∧
     ∃ e', (flushBook false [] ⟨[], [⟨[], [some ⟨sampleEUR, [Split.mk sampleAsset 100 none "",
                                                             Split.mk sampleAsset (-100) none ""]⟩,
                                           some ⟨sampleEUR, [Split.mk sampleAsset 100 none "",
                                                             Split.mk sampleAsset (-10) none ""]⟩,
                                           none], []⟩], []⟩).2 = some e') ∧
    (∃ txs, flushBook false [] ⟨[], [⟨[], [some ⟨sampleEUR, [Split.mk sampleAsset 100 none "",
                                                             Split.mk sampleAsset (-100) none ""]⟩],
                                      []⟩], []⟩ = ([] ++ txs, none)) := by
  refine ⟨?_, ?_, ?_⟩
  · exact c5_atomic_batch_validation.1
      ⟨[], [⟨[], [some ⟨sampleEUR, [Split.mk sampleAsset 100 none "",
                                    Split.mk sampleAsset (-100) none ""]⟩,
                  some ⟨sampleEUR, [Split.mk sampleAsset 100 none "",
                                    Split.mk sampleAsset (-10) none ""]⟩,
                  none], []⟩], []⟩
  · exact c5_atomic_batch_validation.2.1 false []
      ⟨[], [⟨[], [some ⟨sampleEUR, [Split.mk sampleAsset 100 none "",
                                    Split.mk sampleAsset (-100) none ""]⟩,
                  some ⟨sampleEUR, [Split.mk sampleAsset 100 none "",
                                    Split.mk sampleAsset (-10) none ""]⟩,
                  none], []⟩], []⟩
      ⟨sampleEUR, [Split.mk sampleAsset 100 none "", Split.mk sampleAsset (-10) none ""]⟩
      (.imbalancedTransaction 90) (by decide) (by decide)
  · exact c5_atomic_batch_validation.2.2 false []
      ⟨[], [⟨[], [some ⟨sampleEUR, [Split.mk sampleAsset 100 none "",
                                    Split.mk sampleAsset (-100) none ""]⟩], []⟩], []⟩
      (by
        intro tx hmem
        have h0 : collectTxs ⟨[], [⟨[], [some ⟨sampleEUR,
            [Split.mk sampleAsset 100 none "", Split.mk sampleAsset (-100) none ""]⟩], []⟩], []⟩
            = [⟨sampleEUR, [Split.mk sampleAsset 100 none "",
                            Split.mk sampleAsset (-100) none ""]⟩] := by decide
        rw [h0] at hmem
        rcases List.mem_singleton.mp hmem with heq
        subst heq
        exact ⟨⟨sampleEUR, [Split.mk sampleAsset 100 (some 100) "",
                            Split.mk sampleAsset (-100) (some (-100)) ""]⟩, by decide⟩)

/-- C6: adapting a session for a read-only book replaces its commit by
a function that always raises the locked-database error, leaves the
staged in-memory state untouched and commutes with staging further
in-memory mutations (mutation itself is never refused); adapting for a
writable book changes nothing. -/
theorem c6_readonly_commit_rejected :
    (∀ (s : SASession) (store : List Transaction) (st : SessionState),
       (adapt_session s true).commitFn store st
         = .error "You cannot change the DB, it is locked !") ∧
    (∀ s : SASession, (adapt_session s true).staged = s.staged) ∧
    (∀ (s : SASession) (o : StagedObj),
       stageNew (adapt_session s true) o = adapt_session (stageNew s o) true) ∧
    (∀ s : SASession, adapt_session s false = s) :=
  ⟨fun _ _ _ => rfl, fun _ => rfl, fun _ _ => rfl, fun _ => rfl⟩

theorem checkVersions_mem_fail (rows : List (String × Nat)) (k : String) (v : Nat)
    (hmem : (k, v) ∈ rows) (hsub : charsSub k.toList "Gnucash".toList = false)
    (hbad : ¬ List.lookup k version_supported = some v) :
    ∃ e, checkVersions rows = .error e := by
  induction rows with
  | nil => cases hmem
  | cons p rest ih =>
    rcases p with ⟨k0, v0⟩
    by_cases hs0 : charsSub k0.toList "Gnucash".toList = true
    · rcases List.mem_cons.mp hmem with heq | hmem'
      · rcases Prod.mk.injEq .. ▸ heq with ⟨hk, hv⟩
        subst hk
        rw [hsub] at hs0
        cases hs0
      · rcases ih hmem' with ⟨e, he⟩
        refine ⟨e, ?_⟩
        unfold checkVersions
        rw [if_pos hs0]
        exact he
    · cases hl : List.lookup k0 version_supported with
      | none =>
        refine ⟨"KeyError: " ++ k0, ?_⟩
        unfold checkVersions
        rw [if_neg hs0, hl]
      | some sv =>
        by_cases hsv : sv = v0
        · rcases List.mem_cons.mp hmem with heq | hmem'
          · rcases Prod.mk.injEq .. ▸ heq with ⟨hk, hv⟩
            subst hk
            subst hv
            subst hsv
            exact absurd hl hbad
          · rcases ih hmem' with ⟨e, he⟩
            refine ⟨e, ?_⟩
            unfold checkVersions
            rw [if_neg hs0, hl]
            show (if sv = v0 then checkVersions rest
                  else Except.error ("Unsupported version for table " ++ k0)) = _
            rw [if_pos hsv]
            exact he
        · refine ⟨"Unsupported version for table " ++ k0, ?_⟩
          unfold checkVersions
          rw [if_neg hs0, hl]
          show (if sv = v0 then checkVersions rest
                else Except.error ("Unsupported version for table " ++ k0)) = _
          rw [if_neg hsv]

theorem checkVersions_all_ok (rows : List (String × Nat))
    (hall : ∀ k v, (k, v) ∈ rows →
      charsSub k.toList "Gnucash".toList = true ∨ List.lookup k version_supported = some v) :
    checkVersions rows = .ok () := by
  induction rows with
  | nil => rfl
  | cons p rest ih =>
    rcases p with ⟨k0, v0⟩
    have ih' := ih (fun k v hm => hall k v (List.mem_cons.mpr (Or.inr hm)))
    by_cases hs : charsSub k0.toList "Gnucash".toList = true
    · unfold checkVersions
      rw [if_pos hs]
      exact ih'
    · rcases hall k0 v0 (List.mem_cons_self (k0, v0) rest) with hs' | hl
      · exact absurd hs' hs
      · unfold checkVersions
        rw [if_neg hs, hl]
        show (if v0 = v0 then checkVersions rest
              else Except.error ("Unsupported version for table " ++ k0)) = _
        rw [if_pos rfl]
        exact ih'

/-- C8 counterexample: a versions table whose Gnucash row disagrees
with the supported version (1 against 2060400) still opens: the
version-check loop skips any table name contained in "Gnucash", so a
mismatch on that row is not a failure, contradicting the claim that
every row is checked. -/
theorem c8_version_check_counterexample :
    List.lookup "Gnucash" version_supported = some 2060400 ∧
    (1 : Nat) ≠ 2060400 ∧
    ("Gnucash", 1) ∈ versionBookOf [("Gnucash", 1)] ∧
    open_book true [] false true [("Gnucash", 1)] = .ok ⟨true⟩ := by
  refine ⟨by decide, by decide, by decide, by decide⟩

/-- C8 as amended: every entry of the version dict built from the
versions table whose table name is not a substring of "Gnucash" (the
Gnucash row itself is deliberately skipped) is checked against
version_supported and any mismatch or unknown name makes open_book
fail; when all checked entries match (and the database exists with no
blocking lock), open_book returns the book handle. -/
theorem c8_version_check :
    (∀ (dbExists : Bool) (locks : List (String × Nat)) (open_if_lock readonly : Bool)
       (rows : List (String × Nat)) (k : String) (v : Nat),
       (k, v) ∈ versionBookOf rows →
       charsSub k.toList "Gnucash".toList = false →
       ¬ List.lookup k version_supported = some v →
       ∃ e, open_book dbExists locks open_if_lock readonly rows = .error e) ∧
    (∀ (locks : List (String × Nat)) (open_if_lock readonly : Bool)
       (rows : List (String × Nat)),
       (locks = [] ∨ open_if_lock = true) →
       (∀ k v, (k, v) ∈ versionBookOf rows →
          charsSub k.toList "Gnucash".toList = true ∨
          List.lookup k version_supported = some v) →
       open_book true locks open_if_lock readonly rows = .ok ⟨readonly⟩) := by
  constructor
  · intro dbExists locks open_if_lock readonly rows k v hmem hsub hbad
    cases dbExists with
    | false => exact ⟨"Database does not exist", by simp [open_book]⟩
    | true =>
      by_cases hlock : locks.isEmpty = false ∧ open_if_lock = false
      · refine ⟨"Lock on the file", ?_⟩
        unfold open_book
        rw [if_neg (by simp), if_pos hlock]
      · rcases checkVersions_mem_fail (versionBookOf rows) k v hmem hsub hbad with ⟨e, he⟩
        refine ⟨e, ?_⟩
        unfold open_book
        rw [if_neg (by simp), if_neg hlock, he]
  · intro locks open_if_lock readonly rows hlock hall
    have hl : ¬ (locks.isEmpty = false ∧ open_if_lock = false) := by
      rcases hlock with h | h <;> simp [h]
    unfold open_book
    rw [if_neg (by simp), if_neg hl, checkVersions_all_ok (versionBookOf rows) hall]

/-- Witness for the amended C8: a versions table with a stale accounts
row (99 against 1) makes open_book fail, and the full supported table
itself opens fine. -/
theorem c8_version_check_witness :
    (∃ e, open_book true [] false true [("accounts", 99)] = .error e) ∧
    open_book true [] false true version_supported = .ok ⟨true⟩ := by
  constructor
  · exact c8_version_check.1 true [] false true [("accounts", 99)] "accounts" 99
      (by decide) (by decide) (by decide)
  · refine c8_version_check.2 [] false true version_supported (Or.inl rfl) ?_
    intro k v hmem
    have h0 : versionBookOf version_supported = version_supported := by decide
    rw [h0] at hmem
    have hall : ∀ p ∈ version_supported,
        charsSub p.1.toList "Gnucash".toList = true ∨
        List.lookup p.1 version_supported = some p.2 := by decide
    exact hall (k, v) hmem

/-- C9 counterexample: a non-currency commodity linked to a book whose
quoted_currency slot holds the empty string raises, although the slot
is present and the book even contains a currency with that mnemonic:
the source tests the slot value for truthiness, so an empty slot value
behaves like an absent slot, contradicting the claim that a present
slot yields the currency it names. -/
theorem c9_base_currency_counterexample :
    slotGet ⟨⟨"FUND", "XYZ"⟩, some ⟨sampleEUR, [sampleEUR, ⟨"CURRENCY", ""⟩]⟩,
             [("quoted_currency", "")], []⟩ "quoted_currency" = some "" ∧
    findCurrency ⟨sampleEUR, [sampleEUR, ⟨"CURRENCY", ""⟩]⟩ "" = some ⟨"CURRENCY", ""⟩ ∧
    (∃ e, base_currency ⟨⟨"FUND", "XYZ"⟩, some ⟨sampleEUR, [sampleEUR, ⟨"CURRENCY", ""⟩]⟩,
             [("quoted_currency", "")], []⟩ = .error e) ∧
    base_currency ⟨⟨"FUND", "XYZ"⟩, some ⟨sampleEUR, [sampleEUR, ⟨"CURRENCY", ""⟩]⟩,
             [("quoted_currency", "")], []⟩ ≠ .ok ⟨"CURRENCY", ""⟩ := by
  refine ⟨rfl, rfl, ⟨"The commodity has no information about its base currency", rfl⟩, by decide⟩

/-- C9 as amended: base_currency raises when the commodity is not
linked to a book; for a linked CURRENCY-namespace commodity it returns
the default currency of the book; for a linked non-currency commodity
with a nonempty quoted_currency slot naming a currency of the book it
returns that currency; and it raises when the slot is absent or holds
the empty string. -/
theorem c9_base_currency :
    (∀ c : CommodityState, c.book = none → ∃ e, base_currency c = .error e) ∧
    (∀ (c : CommodityState) (b : BookC), c.book = some b →
       c.cdty.namespace_ = "CURRENCY" → base_currency c = .ok b.default_currency) ∧
    (∀ (c : CommodityState) (b : BookC) (m : String) (cur : Commodity),
       c.book = some b → c.cdty.namespace_ ≠ "CURRENCY" →
       slotGet c "quoted_currency" = some m → m ≠ "" →
       findCurrency b m = some cur → base_currency c = .ok cur) ∧
    (∀ (c : CommodityState) (b : BookC), c.book = some b →
       c.cdty.namespace_ ≠ "CURRENCY" →
       (slotGet c "quoted_currency" = none ∨ slotGet c "quoted_currency" = some "") →
       ∃ e, base_currency c = .error e) := by
  refine ⟨?_, ?_, ?_, ?_⟩
  · intro c h
    exact ⟨"The commodity should be linked to a session to have a base_currency",
           by simp [base_currency, h]⟩
  · intro c b hb hns
    simp [base_currency, hb, hns]
  · intro c b m cur hb hns hslot hm hfind
    simp [base_currency, hb, hns, hslot, hm, hfind]
  · intro c b hb hns hslot
    refine ⟨"The commodity has no information about its base currency", ?_⟩
    rcases hslot with h | h <;> simp [base_currency, hb, hns, h]

/-- Witness for the amended C9 at four concrete commodities: unlinked,
a linked currency, a linked fund with slot EUR, and a linked fund with
no slot. -/
theorem c9_base_currency_witness :
    (∃ e, base_currency ⟨sampleStock, none, [], []⟩ = .error e) ∧
    base_currency ⟨sampleEUR, some ⟨sampleEUR, [sampleEUR]⟩, [], []⟩ = .ok sampleEUR ∧
    base_currency ⟨sampleStock, some ⟨sampleEUR, [sampleEUR]⟩,
                   [("quoted_currency", "EUR")], []⟩ = .ok sampleEUR ∧
    (∃ e, base_currency ⟨sampleStock, some ⟨sampleEUR, [sampleEUR]⟩, [], []⟩ = .error e) := by
  refine ⟨?_, ?_, ?_, ?_⟩
  · exact c9_base_currency.1 ⟨sampleStock, none, [], []⟩ rfl
  · exact c9_base_currency.2.1 ⟨sampleEUR, some ⟨sampleEUR, [sampleEUR]⟩, [], []⟩
      ⟨sampleEUR, [sampleEUR]⟩ rfl rfl
  · exact c9_base_currency.2.2.1
      ⟨sampleStock, some ⟨sampleEUR, [sampleEUR]⟩, [("quoted_currency", "EUR")], []⟩
      ⟨sampleEUR, [sampleEUR]⟩ "EUR" sampleEUR rfl (by decide) rfl (by decide) rfl
  · exact c9_base_currency.2.2.2 ⟨sampleStock, some ⟨sampleEUR, [sampleEUR]⟩, [], []⟩
      ⟨sampleEUR, [sampleEUR]⟩ rfl (by decide) (Or.inl rfl)

/-- C10: update_prices raises a GncPriceError exactly when the
commodity has no book or is a currency equal to the default (base)
currency of the book; in those two cases the result does not depend on
the online providers (nothing is fetched) and the stored prices are
untouched. -/
theorem c10_update_prices_preconditions :
    (∀ (q : String → String → Nat → List (Nat × ℚ)) (yc : String → String)
       (yh : String → Nat → Nat → List (Nat × ℚ)) (today : Nat)
       (start_date : Option Nat) (c : CommodityState),
       (∃ e, update_prices q yc yh today start_date c = .error e ∧ isGncPriceError e = true)
         ↔ (c.book = none ∨ (c.cdty.namespace_ = "CURRENCY" ∧
              ∃ b, c.book = some b ∧ b.default_currency = c.cdty))) ∧
    (∀ (q : String → String → Nat → List (Nat × ℚ)) (yc : String → String)
       (yh : String → Nat → Nat → List (Nat × ℚ)) (today : Nat)
       (start_date : Option Nat) (c : CommodityState) (e : UpdatePriceErr),
       update_prices q yc yh today start_date c = .error e → isGncPriceError e = true →
       ∀ (q2 : String → String → Nat → List (Nat × ℚ)) (yc2 : String → String)
         (yh2 : String → Nat → Nat → List (Nat × ℚ)),
         update_prices q2 yc2 yh2 today start_date c
           = update_prices q yc yh today start_date c) ∧
    (∀ (q : String → String → Nat → List (Nat × ℚ)) (yc : String → String)
       (yh : String → Nat → Nat → List (Nat × ℚ)) (today : Nat)
       (start_date : Option Nat) (c : CommodityState) (e : UpdatePriceErr),
       update_prices q yc yh today start_date c = .error e →
       pricesAfter c (update_prices q yc yh today start_date c) = c.prices) := by
  refine ⟨?_, ?_, ?_⟩
  · intro q yc yh today start_date c
    cases hb : c.book with
    | none => simp [update_prices, hb, isGncPriceError]
    | some b =>
      by_cases hns : c.cdty.namespace_ = "CURRENCY"
      · by_cases hdc : b.default_currency = c.cdty
        · simp [update_prices, hb, hns, hdc, isGncPriceError]
        · simp [update_prices, hb, hns, hdc, isGncPriceError]
      · cases hf : findCurrency b (yc c.cdty.mnemonic) with
        | none => simp [update_prices, hb, hns, hf, isGncPriceError]
        | some cur => simp [update_prices, hb, hns, hf, isGncPriceError]
  · intro q yc yh today start_date c e h hgnc q2 yc2 yh2
    cases hb : c.book with
    | none => simp [update_prices, hb]
    | some b =>
      by_cases hns : c.cdty.namespace_ = "CURRENCY"
      · by_cases hdc : b.default_currency = c.cdty
        · simp [update_prices, hb, hns, hdc]
        · simp [update_prices, hb, hns, hdc] at h
      · cases hf : findCurrency b (yc c.cdty.mnemonic) with
        | none =>
          simp [update_prices, hb, hns, hf] at h
          subst h
          simp [isGncPriceError] at hgnc
        | some cur => simp [update_prices, hb, hns, hf] at h
  · intro q yc yh today start_date c e h
    rw [h]
    rfl

unseal Rat.add in
/-- Witness for C10: a commodity without a book raises with no
retrieval, and the default EUR currency of its own book raises the
base-currency error with the stored prices untouched. -/
theorem c10_update_prices_preconditions_witness :
    (∃ e, update_prices (fun _ _ _ => []) (fun _ => "EUR") (fun _ _ _ => []) 100 none
        ⟨sampleUSD, none, [], []⟩ = .error e ∧ isGncPriceError e = true) ∧
    update_prices (fun _ _ _ => [(8, 1)]) (fun _ => "EUR") (fun _ _ _ => [(8, 1)]) 100 none
        ⟨sampleEUR, some ⟨sampleEUR, [sampleEUR]⟩, [], [samplePrice5]⟩
      = update_prices (fun _ _ _ => []) (fun _ => "EUR") (fun _ _ _ => []) 100 none
        ⟨sampleEUR, some ⟨sampleEUR, [sampleEUR]⟩, [], [samplePrice5]⟩ ∧
    pricesAfter ⟨sampleEUR, some ⟨sampleEUR, [sampleEUR]⟩, [], [samplePrice5]⟩
        (update_prices (fun _ _ _ => []) (fun _ => "EUR") (fun _ _ _ => []) 100 none
          ⟨sampleEUR, some ⟨sampleEUR, [sampleEUR]⟩, [], [samplePrice5]⟩)
      = [samplePrice5] := by
  refine ⟨?_, ?_, ?_⟩
  · exact (c10_update_prices_preconditions.1 (fun _ _ _ => []) (fun _ => "EUR")
      (fun _ _ _ => []) 100 none ⟨sampleUSD, none, [], []⟩).mpr (Or.inl rfl)
  · exact c10_update_prices_preconditions.2.1 (fun _ _ _ => []) (fun _ => "EUR")
      (fun _ _ _ => []) 100 none ⟨sampleEUR, some ⟨sampleEUR, [sampleEUR]⟩, [], [samplePrice5]⟩
      .baseCurrencySelf rfl rfl (fun _ _ _ => [(8, 1)]) (fun _ => "EUR") (fun _ _ _ => [(8, 1)])
  · exact c10_update_prices_preconditions.2.2 (fun _ _ _ => []) (fun _ => "EUR")
      (fun _ _ _ => []) 100 none ⟨sampleEUR, some ⟨sampleEUR, [sampleEUR]⟩, [], [samplePrice5]⟩
      .baseCurrencySelf rfl

theorem lastPriceDate_le (ps : List Price) (d : Nat) (h : lastPriceDate ps = some d) :
    ∀ r ∈ ps, r.date ≤ d := by
  induction ps generalizing d with
  | nil => intro r hr; cases hr
  | cons a rest ih =>
    intro r hr
    cases hrest : lastPriceDate rest with
    | none =>
      have hrestnil : rest = [] := by
        cases rest with
        | nil => rfl
        | cons b rest' => simp [lastPriceDate] at hrest
      subst hrestnil
      simp [lastPriceDate] at h
      rcases List.mem_singleton.mp hr with rfl
      exact le_of_eq h
    | some d' =>
      simp [lastPriceDate, hrest] at h
      subst h
      rcases List.mem_cons.mp hr with rfl | hr'
      · exact le_max_left _ _
      · exact le_trans (ih d' hrest r hr') (le_max_right _ _)

theorem lastPriceDate_isSome (ps : List Price) (r : Price) (hr : r ∈ ps) :
    ∃ d, lastPriceDate ps = some d := by
  cases ps with
  | nil => cases hr
  | cons a rest => exact ⟨_, rfl⟩

theorem effStart_gt (ps : List Price) (s0 : Nat) (r : Price) (hr : r ∈ ps) :
    r.date < effStart ps s0 := by
  rcases lastPriceDate_isSome ps r hr with ⟨d, hd⟩
  have hle := lastPriceDate_le ps d hd r hr
  unfold effStart
  rw [hd]
  exact lt_of_le_of_lt hle (lt_of_lt_of_le (Nat.lt_succ_self d) (le_max_left _ _))

theorem update_prices_ok_shape
    (q : String → String → Nat → List (Nat × ℚ)) (yc : String → String)
    (yh : String → Nat → Nat → List (Nat × ℚ)) (today : Nat)
    (start_date : Option Nat) (c : CommodityState) (ps : List Price)
    (hq : ∀ m bm s p, p ∈ q m bm s → s ≤ p.1 ∧ p.1 ≤ today)
    (hy : ∀ m s e p, p ∈ yh m s e → s ≤ p.1 ∧ p.1 ≤ e)
    (hqp : ∀ m bm s, ((q m bm s).map Prod.fst).Pairwise (· < ·))
    (hyp : ∀ m s e, ((yh m s e).map Prod.fst).Pairwise (· < ·))
    (h : update_prices q yc yh today start_date c = .ok ps) :
    ∃ news, ps = c.prices ++ news ∧
      (∀ r ∈ news, effStart c.prices (start_date.getD (today - 7)) ≤ r.date ∧ r.date ≤ today) ∧
      (news.map (fun r => r.date)).Pairwise (· < ·) := by
  cases hb : c.book with
  | none => simp [update_prices, hb] at h
  | some b =>
    by_cases hns : c.cdty.namespace_ = "CURRENCY"
    · by_cases hdc : b.default_currency = c.cdty
      · simp [update_prices, hb, hns, hdc] at h
      · simp [update_prices, hb, hns, hdc] at h
        refine ⟨_, h.symm, ?_, ?_⟩
        · intro r hr
          rcases List.mem_map.mp hr with ⟨p, hp, rfl⟩
          exact ⟨(hq _ _ _ p hp).1, (hq _ _ _ p hp).2⟩
        · rw [List.map_map]
          exact hqp _ _ _
    · cases hf : findCurrency b (yc c.cdty.mnemonic) with
      | none => simp [update_prices, hb, hns, hf] at h
      | some cur =>
        simp [update_prices, hb, hns, hf] at h
        refine ⟨_, h.symm, ?_, ?_⟩
        · intro r hr
          rcases List.mem_map.mp hr with ⟨p, hp, rfl⟩
          exact ⟨(hy _ _ _ p hp).1, (hy _ _ _ p hp).2⟩
        · rw [List.map_map]
          exact hyp _ _ _

/-- C7: when the online providers return quotes dated inside the
requested window with strictly increasing dates, a successful
update_prices only appends new Price rows: the stored rows survive
unchanged as a prefix, every appended row is dated at or after the
effective start (the requested start pushed past the most recent
stored price) and strictly after every stored row, the appended dates
are strictly increasing, and re-running the same fetch appends only
rows dated strictly after everything the first run stored, so no
duplicate price row is ever created. -/
theorem c7_update_prices_idempotent
    (q : String → String → Nat → List (Nat × ℚ)) (yc : String → String)
    (yh : String → Nat → Nat → List (Nat × ℚ)) (today : Nat)
    (start_date : Option Nat) (c : CommodityState) (ps : List Price)
    (hq : ∀ m bm s p, p ∈ q m bm s → s ≤ p.1 ∧ p.1 ≤ today)
    (hy : ∀ m s e p, p ∈ yh m s e → s ≤ p.1 ∧ p.1 ≤ e)
    (hqp : ∀ m bm s, ((q m bm s).map Prod.fst).Pairwise (· < ·))
    (hyp : ∀ m s e, ((yh m s e).map Prod.fst).Pairwise (· < ·))
    (h : update_prices q yc yh today start_date c = .ok ps) :
    (∃ news, ps = c.prices ++ news ∧
       (∀ r ∈ news, ∀ old ∈ c.prices, old.date < r.date) ∧
       (∀ r ∈ news, effStart c.prices (start_date.getD (today - 7)) ≤ r.date) ∧
       (news.map (fun r => r.date)).Pairwise (· < ·)) ∧
    (∀ ps', update_prices q yc yh today start_date { c with prices := ps } = .ok ps' →
       ∃ news', ps' = ps ++ news' ∧ ∀ r ∈ news', ∀ old ∈ ps, old.date < r.date) := by
  constructor
  · rcases update_prices_ok_shape q yc yh today start_date c ps hq hy hqp hyp h
      with ⟨news, hps, hdates, hpw⟩
    refine ⟨news, hps, ?_, fun r hr => (hdates r hr).1, hpw⟩
    intro r hr old hold
    exact lt_of_lt_of_le (effStart_gt c.prices _ old hold) (hdates r hr).1
  · intro ps' h'
    rcases update_prices_ok_shape q yc yh today start_date { c with prices := ps } ps'
      hq hy hqp hyp h' with ⟨news', hps', hdates', _⟩
    refine ⟨news', hps', ?_⟩
    intro r hr old hold
    exact lt_of_lt_of_le (effStart_gt ps _ old hold) (hdates' r hr).1

unseal Rat.add in
/-- Witness for C7: a USD commodity holding a price of day 5, fetched
with requested start day 3 at day 100, appends exactly the day 6 quote
(the effective start is day 6), and re-running the fetch appends only
rows dated after both stored rows. -/
theorem c7_update_prices_idempotent_witness :
    (∃ news, [samplePrice5, samplePrice6] = sampleCState.prices ++ news ∧
       (∀ r ∈ news, ∀ old ∈ sampleCState.prices, old.date < r.date) ∧
       (∀ r ∈ news, effStart sampleCState.prices ((some 3).getD (100 - 7)) ≤ r.date) ∧
       (news.map (fun r => r.date)).Pairwise (· < ·)) ∧
    (∀ ps', update_prices sampleQuandl (fun _ => "EUR") sampleYahooHist 100 (some 3)
         { sampleCState with prices := [samplePrice5, samplePrice6] } = .ok ps' →
       ∃ news', ps' = [samplePrice5, samplePrice6] ++ news' ∧
         ∀ r ∈ news', ∀ old ∈ [samplePrice5, samplePrice6], old.date < r.date) := by
  refine c7_update_prices_idempotent sampleQuandl (fun _ => "EUR") sampleYahooHist 100 (some 3)
    sampleCState [samplePrice5, samplePrice6] ?_ ?_ ?_ ?_ (by decide)
  · intro m bm s p hp
    by_cases hs : s ≤ 100
    · simp [sampleQuandl, hs] at hp
      subst hp
      exact ⟨le_refl s, hs⟩
    · simp [sampleQuandl, hs] at hp
  · intro m s e p hp
    by_cases hs : s ≤ e
    · simp [sampleYahooHist, hs] at hp
      subst hp
      exact ⟨le_refl s, hs⟩
    · simp [sampleYahooHist, hs] at hp
  · intro m bm s
    by_cases hs : s ≤ 100 <;> simp [sampleQuandl, hs]
  · intro m s e
    by_cases hs : s ≤ e <;> simp [sampleYahooHist, hs]

end Piecash
